import Mathlib

/-!
Shallow embedding of `src/recommender.ipynb`, a content-based movie
recommender.  The notebook delegates text vectorization to sklearn's
`TfidfVectorizer` (defaults: lowercase, token pattern `\b\w\w+\b`,
`smooth_idf=True`, `norm='l2'`) and similarity to
`sklearn.metrics.pairwise.cosine_similarity`; ranking is
`cos_sims.argsort()[-n:][::-1]` over the resulting NumPy array followed by
`movies.iloc[top_idxs]`.  The numeric layer is idealised over `ℝ`; the
token/count layer and the index manipulations are executable.

NumPy's default `argsort` (`kind='quicksort'`, an introsort) is documented
unstable, and its partition step can permute equal-keyed indices once the
array exceeds 16 elements; on arrays of at most 16 elements it runs pure
insertion sort, which is stable.  `argsort` is modelled here as the stable
ascending argsort (sorting the index list by value with ties in ascending
index order).  The model therefore coincides with the program exactly on
score arrays of at most 16 entries, and every conclusion below that is
sensitive to the order WITHIN a tie group is restricted to that regime;
tie-order-insensitive facts (the output is by-value ascending, and a
permutation of `range`) hold for NumPy's argsort at every size and are
stated without the restriction.
-/

namespace Recommender

/-- Word characters of the default sklearn token pattern `\w` (ASCII part). -/
def isWordChar (c : Char) : Bool := c.isAlphanum || c = '_'

/-- Splits a character list into maximal runs of word characters.
The accumulator holds the current run, reversed. -/
def wordSplit : List Char → List Char → List (List Char)
  | [], acc => if acc.isEmpty then [] else [acc.reverse]
  | c :: cs, acc =>
    if isWordChar c then wordSplit cs (c :: acc)
    else if acc.isEmpty then wordSplit cs []
    else acc.reverse :: wordSplit cs []

/-- Tokenization of sklearn's `TfidfVectorizer` defaults: lower-case, then
keep maximal word-character runs of length at least 2 (`\b\w\w+\b`). -/
def tokenize (s : String) : List String :=
  ((wordSplit (s.toList.map Char.toLower) []).filter (fun w => 2 ≤ w.length)).map
    (fun w => String.mk w)

/-- Vocabulary over the tokenized corpus entries: the distinct terms.
(sklearn additionally sorts the vocabulary alphabetically; only membership
matters here, since every vector is indexed by the same vocabulary list.) -/
def vocab (docs : List (List String)) : List String :=
  docs.flatten.dedup

/-- Document frequency of term `t`: the number of corpus entries (the query
included) containing `t` at least once. -/
def df (docs : List (List String)) (t : String) : ℕ :=
  (docs.filter (fun d => t ∈ d)).length

/-- Smoothed inverse document frequency of sklearn's `TfidfVectorizer` with
its default `smooth_idf=True`: `ln((1 + N) / (1 + df t)) + 1` over the
corpus-plus-query of size `N = docs.length`. -/
noncomputable def idf (docs : List (List String)) (t : String) : ℝ :=
  Real.log ((1 + docs.length) / (1 + df docs t)) + 1

/-- Unnormalized TF-IDF row of one entry with token list `toks`: raw term
count times `idf`, one component per vocabulary term. -/
noncomputable def rawRow (docs : List (List String)) (toks : List String) :
    List ℝ :=
  (vocab docs).map (fun t => (toks.count t : ℝ) * idf docs t)

/-- Euclidean norm of a vector represented as a list of reals. -/
noncomputable def l2norm (v : List ℝ) : ℝ :=
  Real.sqrt (v.map (fun x => x ^ 2)).sum

/-- L2 normalization as performed by sklearn (`norm='l2'`, and again inside
`cosine_similarity`): divide by the Euclidean norm, except that an all-zero
vector (norm 0) is left unchanged. -/
noncomputable def normalize (v : List ℝ) : List ℝ :=
  if l2norm v = 0 then v else v.map (fun x => x / l2norm v)

/-- Normalized TF-IDF row, as produced by `TfidfVectorizer.fit_transform`. -/
noncomputable def tfidfRow (docs : List (List String)) (toks : List String) :
    List ℝ :=
  normalize (rawRow docs toks)

/-- Dot product of two vectors. -/
def dot (u v : List ℝ) : ℝ :=
  (List.zipWith (fun x y => x * y) u v).sum

/-- Cosine similarity as computed by `sklearn cosine_similarity`: both
vectors are L2-normalized (zero vectors staying zero, so a zero vector has
similarity 0 to everything) and then dotted. -/
noncomputable def cosineSim (u v : List ℝ) : ℝ :=
  dot (normalize u) (normalize v)

/-- Embedding of `calculate_cos_similarities` from the notebook.  The corpus
(plots with the query appended last) is TF-IDF-vectorized and each document
row is dotted with the query row.  `TfidfVectorizer.fit_transform` raises
`ValueError: empty vocabulary` when no entry yields any token, and
`cosine_similarity` raises `ValueError` on a 0-sample first argument
(`tfidf_matrix[:-1]` is empty when the corpus has at most one entry); both
are modelled as `Except.error`. -/
noncomputable def calculate_cos_similarities (corpus : List String) :
    Except String (List ℝ) :=
  if vocab (corpus.map tokenize) = [] then .error "empty vocabulary"
  else if corpus.length ≤ 1 then .error "0 samples"
  else
    .ok ((corpus.map
        (fun s => tfidfRow (corpus.map tokenize) (tokenize s))).dropLast.map
      (fun r => cosineSim r
        ((corpus.map
          (fun s => tfidfRow (corpus.map tokenize) (tokenize s))).getLastD [])))

/-- One record of the movie dataset: a `Title` and a `Plot` column. -/
structure Movie where
  Title : String
  Plot : String
deriving DecidableEq, Repr

/-- Embedding of `form_corpus`: the list of plots with the query appended. -/
def form_corpus (movies : List Movie) (query : String) : List String :=
  (movies.map Movie.Plot) ++ [query]

/-- Comparison used to model NumPy's stable ascending `argsort` on the score
array `xs`: sort indices by value, breaking exact ties by ascending index. -/
def scoreRel (xs : List ℝ) (i j : ℕ) : Prop :=
  xs.getD i 0 < xs.getD j 0 ∨ (xs.getD i 0 = xs.getD j 0 ∧ i ≤ j)

noncomputable instance scoreRel_dec (xs : List ℝ) :
    DecidableRel (scoreRel xs) :=
  Classical.decRel _

/-- Stable ascending argsort of a score list, the model of
`cos_sims.argsort()`.  NumPy's default quicksort agrees with this model on
every by-value comparison at every size, and agrees on the order within tie
groups exactly when the array has at most 16 elements (where it runs
insertion sort); theorems below whose conclusion depends on tie order carry
that size bound as a hypothesis. -/
noncomputable def argsort (xs : List ℝ) : List ℕ :=
  List.insertionSort (scoreRel xs) (List.range xs.length)

/-- Python slice `l[-n:]` (for an arbitrary integer `n`): for `n > 0` the
last `min n l.length` elements; for `n = 0` the whole list (`l[0:]`); for
`n < 0` the list with its first `-n` elements dropped. -/
def pyTail {α : Type} (l : List α) (n : ℤ) : List α :=
  if 0 < n then l.drop (l.length - n.toNat) else l.drop (-n).toNat

/-- The `top_idxs` computation of `find_recommendations`:
`cos_sims.argsort()[-n:][::-1]`. -/
noncomputable def topIdxs (sims : List ℝ) (n : ℤ) : List ℕ :=
  (pyTail (argsort sims) n).reverse

/-- The index list selected by `find_recommendations` (the value of its
local variable `top_idxs`), with the errors of the similarity stage
propagated. -/
noncomputable def find_recommendations_idxs (movies : List Movie)
    (query : String) (n : ℤ) : Except String (List ℕ) :=
  match calculate_cos_similarities (form_corpus movies query) with
  | .error e => .error e
  | .ok sims => .ok (topIdxs sims n)

/-- Embedding of `find_recommendations`: the rows `movies.iloc[top_idxs]`
(title and plot payload) in ranked order. -/
noncomputable def find_recommendations (movies : List Movie) (query : String)
    (n : ℤ) : Except String (List Movie) :=
  (find_recommendations_idxs movies query n).map
    (fun idxs => idxs.map (fun i => movies.getD i ⟨"", ""⟩))

/-- Similarity scores of the success path: one cosine similarity per movie,
against the TF-IDF row of the query, all rows sharing the vocabulary and IDF
of the corpus-plus-query. -/
noncomputable def simsOf (movies : List Movie) (query : String) : List ℝ :=
  movies.map (fun m =>
    cosineSim
      (tfidfRow ((form_corpus movies query).map tokenize) (tokenize m.Plot))
      (tfidfRow ((form_corpus movies query).map tokenize) (tokenize query)))

/-- Two movies with identical plots, used to exhibit the tie-breaking
behavior of the ranking. -/
def dupMovies : List Movie := [⟨"A", "ab"⟩, ⟨"B", "ab"⟩]

/-- The common similarity score of the two identical-plot movies of
`dupMovies` against the query `"ab"`. -/
noncomputable def dupSim : ℝ :=
  cosineSim
    (tfidfRow ((form_corpus dupMovies "ab").map tokenize) (tokenize "ab"))
    (tfidfRow ((form_corpus dupMovies "ab").map tokenize) (tokenize "ab"))

/-! Order properties of the argsort comparison. -/

instance scoreRel_total (xs : List ℝ) : IsTotal ℕ (scoreRel xs) := by
  constructor
  intro i j
  rcases lt_trichotomy (xs.getD i 0) (xs.getD j 0) with h | h | h
  · exact Or.inl (Or.inl h)
  · rcases Nat.le_total i j with hij | hij
    · exact Or.inl (Or.inr ⟨h, hij⟩)
    · exact Or.inr (Or.inr ⟨h.symm, hij⟩)
  · exact Or.inr (Or.inl h)

instance scoreRel_trans (xs : List ℝ) : IsTrans ℕ (scoreRel xs) := by
  constructor
  intro i j k hij hjk
  rcases hij with h1 | ⟨h1, hle1⟩
  · rcases hjk with h2 | ⟨h2, _⟩
    · exact Or.inl (h1.trans h2)
    · exact Or.inl (h2 ▸ h1)
  · rcases hjk with h2 | ⟨h2, hle2⟩
    · exact Or.inl (h1 ▸ h2)
    · exact Or.inr ⟨h1.trans h2, hle1.trans hle2⟩

instance scoreRel_antisymm (xs : List ℝ) : IsAntisymm ℕ (scoreRel xs) := by
  constructor
  intro i j hij hji
  rcases hij with h1 | ⟨h1, hle1⟩
  · rcases hji with h2 | ⟨h2, _⟩
    · exact absurd (h1.trans h2) (lt_irrefl _)
    · exact absurd (h2 ▸ h1) (lt_irrefl _)
  · rcases hji with h2 | ⟨_, hle2⟩
    · exact absurd (h1 ▸ h2) (lt_irrefl _)
    · exact Nat.le_antisymm hle1 hle2

theorem argsort_perm (xs : List ℝ) :
    List.Perm (argsort xs) (List.range xs.length) :=
  List.perm_insertionSort _ _

theorem length_argsort (xs : List ℝ) :
    (argsort xs).length = xs.length := by
  simpa using (argsort_perm xs).length_eq

theorem argsort_sorted (xs : List ℝ) :
    List.Sorted (scoreRel xs) (argsort xs) :=
  List.sorted_insertionSort _ _

theorem argsort_nodup (xs : List ℝ) : (argsort xs).Nodup :=
  (argsort_perm xs).nodup_iff.mpr (List.nodup_range _)

theorem mem_argsort {xs : List ℝ} {i : ℕ} :
    i ∈ argsort xs ↔ i < xs.length := by
  rw [(argsort_perm xs).mem_iff, List.mem_range]

theorem argsort_of_tie {xs : List ℝ}
    (h : ∀ i < xs.length, ∀ j < xs.length, xs.getD i 0 = xs.getD j 0) :
    argsort xs = List.range xs.length := by
  have hs : List.Sorted (scoreRel xs) (List.range xs.length) := by
    refine (List.pairwise_lt_range _).imp_of_mem ?_
    intro i j hi hj hlt
    exact Or.inr ⟨h i (List.mem_range.mp hi) j (List.mem_range.mp hj),
      Nat.le_of_lt hlt⟩
  exact hs.insertionSort_eq

/-! Facts about the slice-and-reverse selection. -/

theorem pyTail_sublist {α : Type} (l : List α) (n : ℤ) :
    List.Sublist (pyTail l n) l := by
  unfold pyTail
  split <;> exact List.drop_sublist _ _

theorem length_pyTail_pos {α : Type} (l : List α) {n : ℤ} (hn : 0 < n) :
    (pyTail l n).length = min n.toNat l.length := by
  unfold pyTail
  rw [if_pos hn, List.length_drop]
  omega

theorem length_pyTail_nonpos {α : Type} (l : List α) {n : ℤ} (hn : n ≤ 0) :
    (pyTail l n).length = l.length - (-n).toNat := by
  unfold pyTail
  rw [if_neg (by omega), List.length_drop]

theorem length_topIdxs_pos (sims : List ℝ) {n : ℤ} (hn : 0 < n) :
    (topIdxs sims n).length = min n.toNat sims.length := by
  unfold topIdxs
  rw [List.length_reverse, length_pyTail_pos _ hn, length_argsort]

theorem length_topIdxs_nonpos (sims : List ℝ) {n : ℤ} (hn : n ≤ 0) :
    (topIdxs sims n).length = sims.length - (-n).toNat := by
  unfold topIdxs
  rw [List.length_reverse, length_pyTail_nonpos _ hn, length_argsort]

theorem mem_topIdxs {sims : List ℝ} {n : ℤ} {i : ℕ}
    (h : i ∈ topIdxs sims n) : i < sims.length := by
  unfold topIdxs at h
  rw [List.mem_reverse] at h
  exact mem_argsort.mp ((pyTail_sublist _ n).mem h)

theorem topIdxs_pairwise (sims : List ℝ) (n : ℤ) :
    (topIdxs sims n).Pairwise (fun a b => scoreRel sims b a) := by
  unfold topIdxs
  rw [List.pairwise_reverse]
  exact (argsort_sorted sims).sublist (pyTail_sublist _ n)

theorem topIdxs_nodup (sims : List ℝ) (n : ℤ) : (topIdxs sims n).Nodup := by
  unfold topIdxs
  exact List.nodup_reverse.mpr
    ((argsort_nodup sims).sublist (pyTail_sublist _ n))

/-! The success path of the similarity computation. -/

theorem length_simsOf (movies : List Movie) (query : String) :
    (simsOf movies query).length = movies.length := by
  unfold simsOf
  rw [List.length_map]

theorem calculate_eq (movies : List Movie) (query : String)
    (hm : movies ≠ [])
    (hv : vocab ((form_corpus movies query).map tokenize) ≠ []) :
    calculate_cos_similarities (form_corpus movies query) =
      .ok (simsOf movies query) := by
  have hlen : ¬((form_corpus movies query).length ≤ 1) := by
    have h0 : 0 < movies.length := List.length_pos.mpr hm
    simp only [form_corpus, List.length_append, List.length_map,
      List.length_cons, List.length_nil]
    omega
  unfold calculate_cos_similarities simsOf
  rw [if_neg hv, if_neg hlen]
  congr 1
  generalize (List.map tokenize (form_corpus movies query)) = docs
  rw [show form_corpus movies query = (movies.map Movie.Plot) ++ [query]
    from rfl]
  rw [List.map_append, List.map_map]
  simp only [List.map_cons, List.map_nil, List.dropLast_concat,
    List.getLastD_concat, List.map_map]
  rfl

/-! Zero vectors: an entry with no tokens produces the all-zero row, and a
zero row has similarity 0 to everything (sklearn's `0/0 := 0` policy). -/

theorem l2norm_nonneg (v : List ℝ) : 0 ≤ l2norm v :=
  Real.sqrt_nonneg _

theorem l2norm_of_all_zero {v : List ℝ} (h : ∀ x ∈ v, x = 0) :
    l2norm v = 0 := by
  unfold l2norm
  have hsum : (v.map (fun x => x ^ 2)).sum = 0 := by
    apply List.sum_eq_zero
    intro y hy
    rcases List.mem_map.mp hy with ⟨x, hx, rfl⟩
    rw [h x hx]
    ring
  rw [hsum, Real.sqrt_zero]

theorem normalize_of_all_zero {v : List ℝ} (h : ∀ x ∈ v, x = 0) :
    normalize v = v := by
  unfold normalize
  rw [if_pos (l2norm_of_all_zero h)]

theorem dot_zero_right : ∀ (u v : List ℝ), (∀ y ∈ v, y = 0) → dot u v = 0
  | [], _, _ => by simp [dot]
  | _ :: _, [], _ => by simp [dot]
  | x :: u, y :: v, h => by
    have hy : y = 0 := h y (List.mem_cons_self y v)
    have ih := dot_zero_right u v (fun z hz => h z (List.mem_cons_of_mem y hz))
    simp only [dot, List.zipWith_cons_cons, List.sum_cons] at ih ⊢
    rw [hy, mul_zero, ih, add_zero]

theorem cosineSim_zero_right (u : List ℝ) {v : List ℝ}
    (h : ∀ y ∈ v, y = 0) : cosineSim u v = 0 := by
  unfold cosineSim
  rw [normalize_of_all_zero h]
  exact dot_zero_right _ _ h

theorem rawRow_nil_all_zero (docs : List (List String)) :
    ∀ x ∈ rawRow docs [], x = 0 := by
  intro x hx
  rcases List.mem_map.mp hx with ⟨t, _, rfl⟩
  simp

theorem tfidfRow_nil_all_zero (docs : List (List String)) :
    ∀ x ∈ tfidfRow docs [], x = 0 := by
  unfold tfidfRow
  rw [normalize_of_all_zero (rawRow_nil_all_zero docs)]
  exact rawRow_nil_all_zero docs

theorem simsOf_all_zero (movies : List Movie) (query : String)
    (hq : tokenize query = []) : ∀ x ∈ simsOf movies query, x = 0 := by
  intro x hx
  rcases List.mem_map.mp hx with ⟨m, _, rfl⟩
  apply cosineSim_zero_right
  rw [hq]
  exact tfidfRow_nil_all_zero _

/-! Vocabulary emptiness and the ranking of an all-zero score list. -/

theorem vocab_eq_nil_iff (docs : List (List String)) :
    vocab docs = [] ↔ ∀ d ∈ docs, d = [] := by
  unfold vocab
  rw [List.dedup_eq_nil, List.flatten_eq_nil_iff]

theorem getD_eq_zero_of_all_zero {sims : List ℝ}
    (h : ∀ x ∈ sims, x = 0) (i : ℕ) : sims.getD i 0 = 0 := by
  rcases Nat.lt_or_ge i sims.length with hi | hi
  · rw [List.getD_eq_getElem sims 0 hi]
    exact h _ (List.getElem_mem hi)
  · exact List.getD_eq_default sims 0 (by omega)

theorem argsort_of_all_zero {sims : List ℝ} (h : ∀ x ∈ sims, x = 0) :
    argsort sims = List.range sims.length := by
  apply argsort_of_tie
  intro i _ j _
  rw [getD_eq_zero_of_all_zero h i, getD_eq_zero_of_all_zero h j]

theorem topIdxs_of_all_zero {sims : List ℝ} (h : ∀ x ∈ sims, x = 0)
    (n : ℤ) :
    topIdxs sims n = (pyTail (List.range sims.length) n).reverse := by
  unfold topIdxs
  rw [argsort_of_all_zero h]

/-! Concrete evaluations used by witnesses and counterexamples. -/

theorem simsOf_eval_single : simsOf [⟨"T", "ab"⟩] "" = [0] := by
  have hz := simsOf_all_zero [⟨"T", "ab"⟩] "" (by decide)
  rcases List.length_eq_one.mp (length_simsOf [⟨"T", "ab"⟩] "") with ⟨a, ha⟩
  rw [ha] at hz ⊢
  rw [hz a (List.mem_singleton_self a)]

theorem calc_eval_single :
    calculate_cos_similarities (form_corpus [⟨"T", "ab"⟩] "") = .ok [0] := by
  rw [calculate_eq _ _ (by decide) (by decide), simsOf_eval_single]

theorem fri_eval_single :
    find_recommendations_idxs [⟨"T", "ab"⟩] "" 1 = .ok [0] := by
  unfold find_recommendations_idxs
  rw [calc_eval_single]
  rfl

theorem simsOf_eval_dup : simsOf dupMovies "ab" = [dupSim, dupSim] := rfl

theorem argsort_dup : argsort [dupSim, dupSim] = [0, 1] := by
  have h : ∀ i < ([dupSim, dupSim] : List ℝ).length,
      ∀ j < ([dupSim, dupSim] : List ℝ).length,
      ([dupSim, dupSim] : List ℝ).getD i 0 =
        ([dupSim, dupSim] : List ℝ).getD j 0 := by
    intro i hi j hj
    simp only [List.length_cons, List.length_nil] at hi hj
    interval_cases i <;> interval_cases j <;> rfl
  simpa using argsort_of_tie h

theorem fri_eval_dup :
    find_recommendations_idxs dupMovies "ab" 2 = .ok [1, 0] := by
  unfold find_recommendations_idxs
  rw [calculate_eq _ _ (by decide) (by decide), simsOf_eval_dup]
  show Except.ok (topIdxs [dupSim, dupSim] 2) = Except.ok [1, 0]
  congr 1
  unfold topIdxs
  rw [argsort_dup]
  decide

/-! Norm facts: the IDF weights are at least 1, a tokenized entry has a raw
row of positive norm, and normalization produces unit norm. -/

theorem df_le_length (docs : List (List String)) (t : String) :
    df docs t ≤ docs.length :=
  List.length_filter_le _ docs

theorem idf_ge_one (docs : List (List String)) (t : String) :
    1 ≤ idf docs t := by
  unfold idf
  have hpos : (0 : ℝ) < 1 + df docs t := by positivity
  have hle : (1 : ℝ) + df docs t ≤ 1 + docs.length := by
    have := df_le_length docs t
    have : (df docs t : ℝ) ≤ docs.length := Nat.cast_le.mpr this
    linarith
  have hlog : 0 ≤ Real.log ((1 + docs.length) / (1 + df docs t)) :=
    Real.log_nonneg ((one_le_div hpos).mpr hle)
  linarith

theorem mem_vocab_of_mem {docs : List (List String)} {toks : List String}
    {t : String} (ht : t ∈ toks) (hd : toks ∈ docs) : t ∈ vocab docs := by
  unfold vocab
  rw [List.mem_dedup, List.mem_flatten]
  exact ⟨toks, hd, ht⟩

theorem sum_sq_nonneg (v : List ℝ) : 0 ≤ (v.map (fun x => x ^ 2)).sum := by
  apply List.sum_nonneg
  intro y hy
  rcases List.mem_map.mp hy with ⟨x, _, rfl⟩
  exact sq_nonneg x

theorem l2norm_rawRow_pos {docs : List (List String)} {toks : List String}
    {t : String} (ht : t ∈ toks) (hd : toks ∈ docs) :
    0 < l2norm (rawRow docs toks) := by
  unfold l2norm
  rw [Real.sqrt_pos]
  have hmem : ((toks.count t : ℝ) * idf docs t) ∈ rawRow docs toks :=
    List.mem_map.mpr ⟨t, mem_vocab_of_mem ht hd, rfl⟩
  have hpos : 0 < (toks.count t : ℝ) * idf docs t := by
    have hc : 0 < toks.count t := List.count_pos_iff.mpr ht
    have hc' : (0 : ℝ) < toks.count t := by exact_mod_cast hc
    have := idf_ge_one docs t
    nlinarith
  have hsq : ((toks.count t : ℝ) * idf docs t) ^ 2 ∈
      (rawRow docs toks).map (fun x => x ^ 2) :=
    List.mem_map.mpr ⟨_, hmem, rfl⟩
  have hle := List.single_le_sum
    (fun y hy => by
      rcases List.mem_map.mp hy with ⟨x, _, rfl⟩
      exact sq_nonneg x) _ hsq
  nlinarith

theorem sum_map_mul_const (l : List ℝ) (f : ℝ → ℝ) (k : ℝ) :
    (l.map (fun x => f x * k)).sum = (l.map f).sum * k := by
  induction l with
  | nil => simp
  | cons a l ih => simp [ih, add_mul]

theorem l2norm_map_div (v : List ℝ) {c : ℝ} (hc : 0 < c) :
    l2norm (v.map (fun x => x / c)) = l2norm v / c := by
  unfold l2norm
  rw [List.map_map]
  have hfun : ((fun x => x ^ 2) ∘ fun x => x / c) =
      fun x => x ^ 2 * (c ^ 2)⁻¹ := by
    funext x
    rw [Function.comp_apply, div_pow]
    ring
  rw [hfun, sum_map_mul_const, Real.sqrt_mul (sum_sq_nonneg v),
    Real.sqrt_inv, Real.sqrt_sq hc.le, div_eq_mul_inv]

theorem l2norm_normalize_eq_one {v : List ℝ} (h : l2norm v ≠ 0) :
    l2norm (normalize v) = 1 := by
  have hc : 0 < l2norm v := lt_of_le_of_ne (l2norm_nonneg v) (Ne.symm h)
  unfold normalize
  rw [if_neg h, l2norm_map_div v hc, div_self h]

theorem l2norm_tfidfRow_of_ne_nil {docs : List (List String)}
    {toks : List String} (hd : toks ∈ docs) (hne : toks ≠ []) :
    l2norm (tfidfRow docs toks) = 1 := by
  rcases List.exists_mem_of_ne_nil toks hne with ⟨t, ht⟩
  exact l2norm_normalize_eq_one (ne_of_gt (l2norm_rawRow_pos ht hd))

/-! Success-path equations and inversion for the whole pipeline. -/

theorem fri_eq (movies : List Movie) (query : String) (n : ℤ)
    (hm : movies ≠ [])
    (hv : vocab ((form_corpus movies query).map tokenize) ≠ []) :
    find_recommendations_idxs movies query n =
      .ok (topIdxs (simsOf movies query) n) := by
  unfold find_recommendations_idxs
  rw [calculate_eq movies query hm hv]

theorem fr_eq (movies : List Movie) (query : String) (n : ℤ)
    (hm : movies ≠ [])
    (hv : vocab ((form_corpus movies query).map tokenize) ≠ []) :
    find_recommendations movies query n =
      .ok ((topIdxs (simsOf movies query) n).map
        (fun i => movies.getD i ⟨"", ""⟩)) := by
  unfold find_recommendations
  rw [fri_eq movies query n hm hv]
  rfl

theorem calc_ok_length {corpus : List String} {sims : List ℝ}
    (h : calculate_cos_similarities corpus = .ok sims) :
    sims.length = corpus.length - 1 := by
  unfold calculate_cos_similarities at h
  by_cases h1 : vocab (corpus.map tokenize) = []
  · rw [if_pos h1] at h
    exact absurd h (by simp)
  · rw [if_neg h1] at h
    by_cases h2 : corpus.length ≤ 1
    · rw [if_pos h2] at h
      exact absurd h (by simp)
    · rw [if_neg h2] at h
      injection h with h
      rw [← h, List.length_map, List.length_dropLast, List.length_map]

theorem fri_ok_inv {movies : List Movie} {query : String} {n : ℤ}
    {idxs : List ℕ}
    (h : find_recommendations_idxs movies query n = .ok idxs) :
    ∃ sims, calculate_cos_similarities (form_corpus movies query) = .ok sims ∧
      idxs = topIdxs sims n := by
  unfold find_recommendations_idxs at h
  cases hc : calculate_cos_similarities (form_corpus movies query) with
  | error e => rw [hc] at h; exact absurd h (by simp)
  | ok sims =>
    rw [hc] at h
    injection h with h
    exact ⟨sims, rfl, h.symm⟩

theorem fri_ok_topIdxs {movies : List Movie} {query : String} {n : ℤ}
    {sims : List ℝ} {idxs : List ℕ}
    (hcalc : calculate_cos_similarities (form_corpus movies query) = .ok sims)
    (hidx : find_recommendations_idxs movies query n = .ok idxs) :
    idxs = topIdxs sims n := by
  unfold find_recommendations_idxs at hidx
  rw [hcalc] at hidx
  injection hidx with hidx
  exact hidx.symm

theorem length_form_corpus (movies : List Movie) (query : String) :
    (form_corpus movies query).length = movies.length + 1 := by
  simp [form_corpus]

/-! Claim theorems. -/

/-- Claim C5 (confirmed): if the corpus of documents is empty before the
query is appended, the pipeline signals an error instead of silently
returning an empty result: `TfidfVectorizer.fit_transform` raises on an
empty vocabulary (query with no tokens), and otherwise `cosine_similarity`
raises on the 0-row document matrix `tfidf_matrix[:-1]`. -/
theorem C5_empty_corpus_error (query : String) (n : ℤ) :
    ∃ msg, find_recommendations_idxs [] query n = .error msg ∧
      find_recommendations [] query n = .error msg := by
  unfold find_recommendations find_recommendations_idxs
  unfold calculate_cos_similarities
  by_cases hv : vocab ((form_corpus [] query).map tokenize) = []
  · rw [if_pos hv]
    exact ⟨"empty vocabulary", rfl, rfl⟩
  · rw [if_neg hv, if_pos (by simp [form_corpus])]
    exact ⟨"0 samples", rfl, rfl⟩

/-- Claim C6 (counterexample): on an input sequence in which every string
tokenizes to zero terms, the vectorizer does NOT yield all-zero vectors
without error: `fit_transform` raises `ValueError: empty vocabulary`, so
the similarity computation fails. -/
theorem C6_counterexample :
    calculate_cos_similarities ["!", ""] = .error "empty vocabulary" := rfl

/-- Claim C6 (amended): if every string of the input sequence tokenizes to
zero terms, the vectorizer raises an empty-vocabulary error (modelled as
`Except.error`), rather than producing all-zero vectors. -/
theorem C6_amended (corpus : List String)
    (h : ∀ s ∈ corpus, tokenize s = []) :
    calculate_cos_similarities corpus = .error "empty vocabulary" := by
  have hv : vocab (corpus.map tokenize) = [] := by
    rw [vocab_eq_nil_iff]
    intro d hd
    rcases List.mem_map.mp hd with ⟨s, hs, rfl⟩
    exact h s hs
  unfold calculate_cos_similarities
  rw [if_pos hv]

theorem C6_amended_witness :
    calculate_cos_similarities ["", "?!"] = .error "empty vocabulary" :=
  C6_amended ["", "?!"] (by decide)

/-- Claim C8 (confirmed): every vector produced by the vectorizer from the
corpus-plus-query input has Euclidean norm exactly 1, except that an entry
whose text tokenizes to zero terms yields the all-zero vector, which stays
all-zero. -/
theorem C8_unit_norm (corpus : List String) (s : String) (hs : s ∈ corpus) :
    (tokenize s = [] →
      ∀ x ∈ tfidfRow (corpus.map tokenize) (tokenize s), x = 0) ∧
    (tokenize s ≠ [] →
      l2norm (tfidfRow (corpus.map tokenize) (tokenize s)) = 1) := by
  constructor
  · intro hnil
    rw [hnil]
    exact tfidfRow_nil_all_zero _
  · intro hne
    exact l2norm_tfidfRow_of_ne_nil (List.mem_map.mpr ⟨s, hs, rfl⟩) hne

theorem C8_unit_norm_witness :
    l2norm (tfidfRow (["ab"].map tokenize) (tokenize "ab")) = 1 :=
  (C8_unit_norm ["ab"] "ab" (by decide)).2 (by decide)

/-- Claim C9 (confirmed): for every term of the vocabulary built over the
corpus-plus-query of size `N = docs.length`, the IDF used in the weighting
is `ln((1 + N) / (1 + df t)) + 1` with `df t` the number of entries
containing `t`, and it is nonnegative (indeed at least 1, since
`df t ≤ N`). -/
theorem C9_idf (docs : List (List String)) (t : String)
    (ht : t ∈ vocab docs) :
    idf docs t = Real.log ((1 + docs.length) / (1 + df docs t)) + 1 ∧
    0 ≤ idf docs t :=
  ⟨rfl, le_trans zero_le_one (idf_ge_one docs t)⟩

theorem C9_idf_witness :
    idf [["ab"]] "ab" =
      Real.log ((1 + ([["ab"]] : List (List String)).length) /
        (1 + df [["ab"]] "ab")) + 1 ∧
    0 ≤ idf [["ab"]] "ab" :=
  C9_idf [["ab"]] "ab" (by decide)

/-- Claim C10 (confirmed): the query pseudo-document appended as the last
corpus entry is never itself returned: the similarity list has exactly one
entry per original document (the last matrix row is excluded), and every
index selected by the ranking stage refers to an original document. -/
theorem C10_query_excluded (movies : List Movie) (query : String) (n : ℤ) :
    (∀ sims,
      calculate_cos_similarities (form_corpus movies query) = .ok sims →
      sims.length = movies.length) ∧
    (∀ idxs, find_recommendations_idxs movies query n = .ok idxs →
      ∀ i ∈ idxs, i < movies.length) := by
  have hlen : ∀ sims,
      calculate_cos_similarities (form_corpus movies query) = .ok sims →
      sims.length = movies.length := by
    intro sims hcalc
    rw [calc_ok_length hcalc, length_form_corpus]
    omega
  refine ⟨hlen, ?_⟩
  intro idxs hidx i hi
  rcases fri_ok_inv hidx with ⟨sims, hcalc, rfl⟩
  have := mem_topIdxs hi
  rw [hlen sims hcalc] at this
  exact this

theorem C10_query_excluded_witness :
    ([0] : List ℝ).length = ([⟨"T", "ab"⟩] : List Movie).length ∧
    ∀ i ∈ ([0] : List ℕ), i < ([⟨"T", "ab"⟩] : List Movie).length :=
  ⟨(C10_query_excluded [⟨"T", "ab"⟩] "" 1).1 [0] calc_eval_single,
   (C10_query_excluded [⟨"T", "ab"⟩] "" 1).2 [0] fri_eval_single⟩

/-- Claim C2 (counterexample): with a one-movie corpus and N = 0,
`find_recommendations` does not return an empty result: the slice
`argsort()[-0:]` is `argsort()[0:]`, the whole array, so the single movie is
returned. -/
theorem C2_counterexample :
    find_recommendations_idxs [⟨"T", "ab"⟩] "ab" 0 = .ok [0] ∧
    find_recommendations_idxs [⟨"T", "ab"⟩] "ab" 0 ≠ .ok [] ∧
    find_recommendations [⟨"T", "ab"⟩] "ab" 0 = .ok [⟨"T", "ab"⟩] := by
  refine ⟨rfl, ?_, rfl⟩
  intro h
  rw [show find_recommendations_idxs [⟨"T", "ab"⟩] "ab" 0 = .ok [0] from rfl]
    at h
  simp at h

/-- Claim C2 (amended): for N ≤ 0 the result is NOT empty: `a[-n:]` drops
only the first `-N` elements of the ascending argsort, so (when the corpus
is non-empty and the corpus-plus-query tokenizes to at least one term, the
conditions for no error) the number of returned movies is
`size - (-N)` — in particular all `size` of them when N = 0. -/
theorem C2_amended (movies : List Movie) (query : String) (n : ℤ)
    (hm : movies ≠ [])
    (hv : vocab ((form_corpus movies query).map tokenize) ≠ [])
    (hn : n ≤ 0) :
    (find_recommendations movies query n).map List.length =
      .ok (movies.length - (-n).toNat) := by
  rw [fr_eq movies query n hm hv]
  rw [show ((Except.ok ((topIdxs (simsOf movies query) n).map
      (fun i => movies.getD i ⟨"", ""⟩)) : Except String (List Movie)).map
      List.length) = .ok ((topIdxs (simsOf movies query) n).map
      (fun i => movies.getD i ⟨"", ""⟩)).length from rfl]
  rw [List.length_map, length_topIdxs_nonpos _ hn, length_simsOf]

theorem C2_amended_witness :
    (find_recommendations [⟨"T", "ab"⟩] "" 0).map List.length = .ok 1 := by
  have h := C2_amended [⟨"T", "ab"⟩] "" 0 (by decide) (by decide) (by decide)
  simpa using h

/-- Claim C4 (counterexample): a non-empty corpus whose single plot (and the
query) tokenize to no terms makes the vectorizer raise an empty-vocabulary
error, so with N = 1 the function does not return `min(1, 1) = 1` results —
the claim's "no error" universal fails. -/
theorem C4_counterexample :
    find_recommendations_idxs [⟨"T", "!!"⟩] "" 1 =
      .error "empty vocabulary" ∧
    (find_recommendations [⟨"T", "!!"⟩] "" 1).map List.length ≠ .ok 1 := by
  refine ⟨rfl, ?_⟩
  intro h
  rw [show (find_recommendations [⟨"T", "!!"⟩] "" 1).map List.length =
    (.error "empty vocabulary" : Except String ℕ) from rfl] at h
  simp at h

/-- Claim C4 (amended): for every non-empty corpus, query and N > 0 such
that the corpus-plus-query tokenizes to at least one term (so that the
vectorizer does not raise), the number of results equals
`min(N, corpus size)`, with no error; in particular N larger than the
corpus size returns all documents. -/
theorem C4_amended (movies : List Movie) (query : String) (n : ℤ)
    (hm : movies ≠ [])
    (hv : vocab ((form_corpus movies query).map tokenize) ≠ [])
    (hn : 0 < n) :
    (find_recommendations movies query n).map List.length =
      .ok (min n.toNat movies.length) := by
  rw [fr_eq movies query n hm hv]
  rw [show ((Except.ok ((topIdxs (simsOf movies query) n).map
      (fun i => movies.getD i ⟨"", ""⟩)) : Except String (List Movie)).map
      List.length) = .ok ((topIdxs (simsOf movies query) n).map
      (fun i => movies.getD i ⟨"", ""⟩)).length from rfl]
  rw [List.length_map, length_topIdxs_pos _ hn, length_simsOf]

theorem C4_amended_witness :
    (find_recommendations [⟨"T", "ab"⟩] "" 10).map List.length = .ok 1 := by
  have h := C4_amended [⟨"T", "ab"⟩] "" 10 (by decide) (by decide) (by decide)
  simpa using h

/-- Claim C1 (counterexample): `dupMovies` holds two movies with identical
plots, whose similarity scores to the query are therefore exactly equal, yet
the result lists the HIGHER original index first (`[1, 0]`, movie "B" before
movie "A"), not the lower one: `argsort()[-n:][::-1]` reverses the stable
ascending argsort, so exact ties come out in descending index order. -/
theorem C1_counterexample :
    (∃ s, calculate_cos_similarities (form_corpus dupMovies "ab") =
      .ok [s, s]) ∧
    find_recommendations_idxs dupMovies "ab" 2 = .ok [1, 0] ∧
    find_recommendations dupMovies "ab" 2 =
      .ok [⟨"B", "ab"⟩, ⟨"A", "ab"⟩] := by
  refine ⟨⟨dupSim, ?_⟩, fri_eval_dup, ?_⟩
  · rw [calculate_eq _ _ (by decide) (by decide), simsOf_eval_dup]
  · unfold find_recommendations
    rw [fri_eval_dup]
    rfl

/-- Claim C1 (amended): exact-tie order is NOT lower-original-index-first;
for score arrays of at most 16 entries — where NumPy's default argsort runs
insertion sort and is therefore stable, so the model coincides with the
program — the code (which reverses the ascending argsort) puts the document
with the strictly HIGHER original index first among exact ties.  For larger
arrays the unstable quicksort leaves the order within a tie group
unspecified, so nothing is asserted there.  The size hypothesis bounds the
statement to where the model is faithful; the Lean model is stable at every
size, so the proof does not consume it. -/
theorem C1_amended (movies : List Movie) (query : String) (n : ℤ)
    (sims : List ℝ) (idxs : List ℕ) (hsmall : sims.length ≤ 16)
    (hcalc : calculate_cos_similarities (form_corpus movies query) = .ok sims)
    (hidx : find_recommendations_idxs movies query n = .ok idxs) :
    idxs.Pairwise (fun a b => sims.getD a 0 = sims.getD b 0 → b < a) := by
  rw [fri_ok_topIdxs hcalc hidx]
  have hp := (topIdxs_pairwise sims n).and (topIdxs_nodup sims n)
  refine hp.imp ?_
  intro a b hab heq
  rcases hab with ⟨hrel | ⟨_, hba⟩, hne⟩
  · rw [heq] at hrel
    exact absurd hrel (lt_irrefl _)
  · exact lt_of_le_of_ne hba (fun hc => hne hc.symm)

theorem C1_amended_witness :
    ([0] : List ℕ).Pairwise
      (fun a b => ([0] : List ℝ).getD a 0 = ([0] : List ℝ).getD b 0 →
        b < a) :=
  C1_amended [⟨"T", "ab"⟩] "" 1 [0] [0] (by decide)
    calc_eval_single fri_eval_single

/-- Claim C3 (counterexample): with a two-movie corpus and an empty query
(which tokenizes to no terms, so every similarity is 0),
`find_recommendations` with N = 1 returns the LAST document (index 1), not
the first N documents in original corpus order. -/
theorem C3_counterexample :
    find_recommendations_idxs [⟨"A", "ab"⟩, ⟨"B", "cd"⟩] "" 1 ≠ .ok [0] ∧
    find_recommendations_idxs [⟨"A", "ab"⟩, ⟨"B", "cd"⟩] "" 1 = .ok [1] := by
  have hz := simsOf_all_zero [⟨"A", "ab"⟩, ⟨"B", "cd"⟩] "" (by decide)
  have h := fri_eq [⟨"A", "ab"⟩, ⟨"B", "cd"⟩] "" 1 (by decide) (by decide)
  rw [topIdxs_of_all_zero hz 1, length_simsOf] at h
  have h1 : find_recommendations_idxs [⟨"A", "ab"⟩, ⟨"B", "cd"⟩] "" 1 =
      .ok [1] := by
    rw [h]
    rfl
  exact ⟨by rw [h1]; simp, h1⟩

/-- Claim C3 (amended): for a non-empty corpus whose corpus-plus-query
tokenizes to at least one term, a query that tokenizes to no terms gives
every document similarity 0 (this part holds at every corpus size), and the
result is NOT the first N documents in original order: for corpora of at
most 16 documents — where NumPy's argsort runs insertion sort, is stable,
and so coincides with the model — `find_recommendations` returns the LAST
`min(N, size)` documents in DESCENDING index order (the reverse of the
`[-n:]` slice of `range size`).  For larger corpora the unstable quicksort
permutes the all-equal score array in an unspecified way, so no exact index
list is asserted there.  The size bound restricts the order conclusion to
where the model is faithful; the Lean model is stable at every size, so the
proof does not consume it. -/
theorem C3_amended (movies : List Movie) (query : String) (n : ℤ)
    (hm : movies ≠ [])
    (hv : vocab ((form_corpus movies query).map tokenize) ≠ [])
    (hq : tokenize query = []) :
    calculate_cos_similarities (form_corpus movies query) =
      .ok (simsOf movies query) ∧
    (∀ x ∈ simsOf movies query, x = 0) ∧
    (movies.length ≤ 16 →
      find_recommendations_idxs movies query n =
        .ok ((pyTail (List.range movies.length) n).reverse)) := by
  refine ⟨calculate_eq movies query hm hv, simsOf_all_zero movies query hq,
    fun _ => ?_⟩
  rw [fri_eq movies query n hm hv,
    topIdxs_of_all_zero (simsOf_all_zero movies query hq) n, length_simsOf]

theorem C3_amended_witness :
    calculate_cos_similarities (form_corpus [⟨"T", "ab"⟩] "") =
      .ok (simsOf [⟨"T", "ab"⟩] "") ∧
    (∀ x ∈ simsOf [⟨"T", "ab"⟩] "", x = 0) ∧
    find_recommendations_idxs [⟨"T", "ab"⟩] "" 1 =
      .ok ((pyTail (List.range ([⟨"T", "ab"⟩] : List Movie).length) 1).reverse) := by
  have h := C3_amended [⟨"T", "ab"⟩] "" 1 (by decide) (by decide) (by decide)
  exact ⟨h.1, h.2.1, h.2.2 (by decide)⟩

/-- Claim C7 (confirmed): for every corpus, query and N > 0, the similarity
scores of the returned documents are in non-increasing order: the returned
index list is a reversed suffix of the ascending argsort, so along it each
later document's score is at most each earlier one's. -/
theorem C7_scores_nonincreasing (movies : List Movie) (query : String)
    (n : ℤ) (sims : List ℝ) (idxs : List ℕ) (hn : 0 < n)
    (hcalc : calculate_cos_similarities (form_corpus movies query) = .ok sims)
    (hidx : find_recommendations_idxs movies query n = .ok idxs) :
    idxs.Pairwise (fun a b => sims.getD b 0 ≤ sims.getD a 0) := by
  rw [fri_ok_topIdxs hcalc hidx]
  refine (topIdxs_pairwise sims n).imp ?_
  intro a b hab
  rcases hab with hlt | ⟨heq, _⟩
  · exact le_of_lt hlt
  · exact le_of_eq heq

theorem C7_scores_nonincreasing_witness :
    ([0] : List ℕ).Pairwise
      (fun a b => ([0] : List ℝ).getD b 0 ≤ ([0] : List ℝ).getD a 0) :=
  C7_scores_nonincreasing [⟨"T", "ab"⟩] "" 1 [0] [0] (by decide)
    calc_eval_single fri_eval_single

end Recommender
